import Mathlib

/-!
Shallow embedding of `src/bin/automake.py` (class `FFMPEG`): a
configuration-to-text compiler that turns a JSON description of video
clips into ffmpeg command lines and a Makefile.

Python dictionaries are modelled as insertion-ordered association lists,
Python exceptions as an explicit `PyErr` error type threaded through
`Except`, and in-place mutation of the configuration as functions that
return the updated record alongside their result.
-/

namespace Automake

/-- Python exceptions that the script can raise. -/
inductive PyErr where
  | assertionError (msg : String)
  | valueError (msg : String)
  | typeError (msg : String)
  | keyError (key : String)
deriving DecidableEq

/-- The possible shapes of the value of a filter unit, mirroring the
dynamic types dispatched on in `FFMPEG.parseFunction`: a key/value
mapping (Python `dict` with string values), an ordered list of string
fragments, a string scalar, a numeric scalar (`int`/`float`), or an
unsupported value such as JSON `null`. -/
inductive FVal where
  | str (s : String)
  | num (n : Int)
  | list (l : List String)
  | dict (l : List (String × String))
  | null
deriving DecidableEq

/-- Python `sep.join(xs)` on a list of strings. -/
def pyJoin (sep : String) (xs : List String) : String :=
  String.intercalate sep xs

/-- Python `sep.join(s)` where `s` is itself a string: Python iterates
over the CHARACTERS of the string, so the separator is inserted between
every pair of adjacent characters. -/
def pyJoinChars (sep : String) (s : String) : String :=
  String.intercalate sep (s.data.map (fun c => String.singleton c))

/-- `FFMPEG.parseFunction` (src/bin/automake.py lines 33-76).
The filter `unit` is a dict with exactly one key, the function name.
Note that the final statement of the Python function is
`return function + '=' + ':'.join(args)`: in the dict branch `args` is a
list of `key=value` strings, but in the list branch `args` was already
joined into a single string (and in the scalar branch `args` IS the
scalar), so the final join runs over characters for those branches, and
raises `TypeError` when the scalar is a number. -/
def parseFunction (unit : List (String × FVal)) : Except PyErr String :=
  match unit with
  | [(function, v)] =>
    match v with
    | .dict kvs =>
      .ok (function ++ "=" ++ pyJoin ":" (kvs.map (fun kv => kv.1 ++ "=" ++ kv.2)))
    | .list l =>
      .ok (function ++ "=" ++ pyJoinChars ":" (pyJoin ":" l))
    | .str s =>
      .ok (function ++ "=" ++ pyJoinChars ":" s)
    | .num _ =>
      .error (.typeError "can only join an iterable")
    | .null =>
      .error (.valueError ("Unknown type \"NoneType\" from unit[" ++ function ++ "]!"))
  | _ => .error (.assertionError "unit must have only 1 key that is the function name!")

/-- A filter-complex entry: either a raw string, or a structured entry
with `istream`, `func` (a filter unit) and `ostream` keys. -/
inductive FCEntry where
  | raw (s : String)
  | obj (istream : String) (func : List (String × FVal)) (ostream : String)
deriving DecidableEq

/-- The fragment list built up by the loop inside
`FFMPEG.parseFilterComplex` (lines 92-102): raw strings pass through,
structured entries render as `istream + parseFunction func + ostream`. -/
def pfcFrags : List FCEntry → Except PyErr (List String)
  | [] => .ok []
  | .raw s :: rest =>
    match pfcFrags rest with
    | .error e => .error e
    | .ok fs => .ok (s :: fs)
  | .obj istream func ostream :: rest =>
    match parseFunction func with
    | .error e => .error e
    | .ok f =>
      match pfcFrags rest with
      | .error e => .error e
      | .ok fs => .ok ((istream ++ f ++ ostream) :: fs)

/-- `FFMPEG.parseFilterComplex` (lines 78-102): the fragments joined
with `;`. -/
def parseFilterComplex (fcs : List FCEntry) : Except PyErr String :=
  match pfcFrags fcs with
  | .error e => .error e
  | .ok fs => .ok (String.intercalate ";" fs)

/-- The `filter_complex` field of a clip: either a literal string or a
list of filter-complex entries (lines 125-128). -/
inductive FCVal where
  | raw (s : String)
  | units (l : List FCEntry)
deriving DecidableEq

/-- One element of a clip input list: a plain path, or a structured
mapping (Python dict of string options) that must carry an `i` key
(lines 110-118). -/
inductive InputEntry where
  | path (p : String)
  | mapping (m : List (String × String))
deriving DecidableEq

/-- The `input` field of a clip: a single path, or a list of input
entries (line 108). -/
inductive InputSpec where
  | single (p : String)
  | multi (l : List InputEntry)
deriving DecidableEq

/-- The optional `codec` mapping of a clip, with optional `audio` and
`video` entries (lines 142 and 145). -/
structure CodecCfg where
  audio : Option String := none
  video : Option String := none
deriving DecidableEq

/-- A clip specification: one element of the `videos` list of the
configuration document. Optional JSON fields are `Option`s; `ffmpeg` is
the field that `_genVideoCmd` writes back onto the clip. -/
structure Clip where
  input : InputSpec
  output : String
  filter_complex : Option FCVal := none
  codec : Option CodecCfg := none
  attributes : Option (List String) := none
  require : Option String := none
  movflags : Option (List String) := none
  ffmpeg : Option String := none
deriving DecidableEq

/-- Python `video.find` for the key `"i"` of a structured input
mapping: `video['i']` (line 111). -/
def lookupI (m : List (String × String)) : Option String :=
  (m.find? (fun kv => kv.1 == "i")).map (fun kv => kv.2)

/-- `del video['i']` (line 112): the remaining pairs keep their order. -/
def delI (m : List (String × String)) : List (String × String) :=
  m.filter (fun kv => kv.1 != "i")

/-- Command-line tokens contributed by one input entry (lines 110-118),
paired with the entry as it stands after the loop body (the structured
mapping loses its `i` key through `del video['i']`). A structured
mapping without an `i` key raises `KeyError`. -/
def entryToks : InputEntry → Except PyErr (List String × InputEntry)
  | .path p => .ok (["-i", p], .path p)
  | .mapping m =>
    match lookupI m with
    | none => .error (.keyError "i")
    | some inputVideo =>
      .ok ((delI m).map (fun kv => "-" ++ kv.1 ++ " " ++ kv.2) ++ ["-i " ++ inputVideo],
           .mapping (delI m))

/-- The input loop over a list of input entries (lines 109-118). -/
def entriesToks : List InputEntry → Except PyErr (List String × List InputEntry)
  | [] => .ok ([], [])
  | e :: rest =>
    match entryToks e with
    | .error err => .error err
    | .ok (ts, e') =>
      match entriesToks rest with
      | .error err => .error err
      | .ok (ts', rest') => .ok (ts ++ ts', e' :: rest')

/-- Command-line tokens for the whole `input` field (lines 108-122),
paired with the input specification after mutation. -/
def inputToks : InputSpec → Except PyErr (List String × InputSpec)
  | .single p => .ok (["-i", p], .single p)
  | .multi l =>
    match entriesToks l with
    | .error err => .error err
    | .ok (ts, l') => .ok (ts, .multi l')

/-- The `-map` tokens appended after a `-filter_complex` flag
(lines 130-135). -/
def mapToks (attrs : List String) : List String :=
  (if attrs.contains "no-audio" then [] else ["-map", "[audio]"]) ++
  (if attrs.contains "no-video" then [] else ["-map", "[video]"])

/-- Tokens of the filter section (lines 123-138): a present
`filter_complex` gives `-filter_complex` with the raw string or the
quoted rendered chain, then the `-map` tokens; an absent one gives the
default scale/aspect video filter. -/
def filterToks (fc : Option FCVal) (attrs : List String) : Except PyErr (List String) :=
  match fc with
  | none => .ok ["-vf", "scale=720x1280,setsar=1:1"]
  | some (.raw s) => .ok (["-filter_complex", s] ++ mapToks attrs)
  | some (.units l) =>
    match parseFilterComplex l with
    | .error e => .error e
    | .ok s => .ok (["-filter_complex", "\"" ++ s ++ "\""] ++ mapToks attrs)

/-- `config.get('codec', {}).get('audio', 'aac')` (line 142). -/
def audioCodec (codec : Option CodecCfg) : String :=
  ((codec.getD {}).audio).getD "aac"

/-- `config.get('codec', {}).get('video', 'h264')` (line 145). -/
def videoCodec (codec : Option CodecCfg) : String :=
  ((codec.getD {}).video).getD "h264"

/-- Codec tokens (lines 140-145). -/
def codecToks (attrs : List String) (codec : Option CodecCfg) : List String :=
  (if attrs.contains "no-audio" then [] else ["-c:a", audioCodec codec]) ++
  (if attrs.contains "no-video" then [] else ["-c:v", videoCodec codec])

/-- The trailing tokens (lines 147-158): metadata stripping, optional
vsync, optional movflags, then force-overwrite and the output path. -/
def tailToks (attrs : List String) (movflags : Option (List String)) (output : String) :
    List String :=
  ["-map_metadata", "-1"] ++
  (if attrs.contains "vsync" then ["-vsync 2"] else []) ++
  (match movflags with
   | none => []
   | some fl => ["-movflags " ++ String.intercalate " " fl]) ++
  ["-y", output]

/-- The full token list of `FFMPEG._genVideoCmd` (lines 104-158), from
the fields of the clip, paired with the input specification after
mutation. -/
def genVideoCmdToks (inp : InputSpec) (fc : Option FCVal) (attrs : List String)
    (codec : Option CodecCfg) (movflags : Option (List String)) (output : String) :
    Except PyErr (List String × InputSpec) :=
  match inputToks inp with
  | .error e => .error e
  | .ok (its, inp') =>
    match filterToks fc attrs with
    | .error e => .error e
    | .ok fts =>
      .ok (["ffmpeg", "-hide_banner"] ++ its ++ fts ++ codecToks attrs codec ++
             tailToks attrs movflags output,
           inp')

/-- `FFMPEG._genVideoCmd` (lines 104-161): returns the mutated clip and
the rendered command. The mutation sets `attributes` and `require` to
their defaults when absent (lines 106-107), removes the `i` key from
structured input mappings (line 112), and stores the joined command
under `ffmpeg` (line 160). -/
def genVideoCmd (c : Clip) : Except PyErr (Clip × String) :=
  let attrs := c.attributes.getD []
  match genVideoCmdToks c.input c.filter_complex attrs c.codec c.movflags c.output with
  | .error e => .error e
  | .ok (toks, inp') =>
    let cmd := String.intercalate " " toks
    .ok ({ c with input := inp'
                  attributes := some attrs
                  require := some (c.require.getD "")
                  ffmpeg := some cmd },
         cmd)

/-- `FFMPEG._buildVideoCmds` (lines 163-165): the loop run by the
constructor over all clips, mutating each in place. -/
def buildVideoCmds : List Clip → Except PyErr (List Clip)
  | [] => .ok []
  | v :: rest =>
    match genVideoCmd v with
    | .error e => .error e
    | .ok (v', _) =>
      match buildVideoCmds rest with
      | .error e => .error e
      | .ok rest' => .ok (v' :: rest')

/-- The accumulator dict of `FFMPEG._genFinalCmd` (lines 172-178) plus
the loop counter `i`. -/
structure FinalAcc where
  deps : String
  input : String
  vstreams : String
  astreams : String
  i : Nat
deriving DecidableEq

/-- The loop of `FFMPEG._genFinalCmd` (lines 178-187): skips clips
flagged `not-a-build`, accumulates a dependency, an `-i` flag and
`[i:v]`/`[i:a]` labels for each included clip. Direct access to
`video['attributes']` raises `KeyError` when the field is absent. -/
def finalLoop : List Clip → FinalAcc → Except PyErr FinalAcc
  | [], acc => .ok acc
  | v :: rest, acc =>
    match v.attributes with
    | none => .error (.keyError "attributes")
    | some attrs =>
      if attrs.contains "not-a-build" then
        finalLoop rest acc
      else
        finalLoop rest
          { deps := acc.deps ++ " " ++ v.output
            input := acc.input ++ " -i " ++ v.output
            vstreams := acc.vstreams ++ "[" ++ toString acc.i ++ ":v]"
            astreams := acc.astreams ++ "[" ++ toString acc.i ++ ":a]"
            i := acc.i + 1 }

/-- The text captured at import time for the drawtext overlay:
`os.environ.get('POST_DATE', time.strftime('%F'))` (line 18), constant
for one process run. -/
def postDateText : String := "2026-10-12"

/-- `FFMPEG.POST_DATE` (lines 15-27). -/
def POST_DATE : List (String × FVal) :=
  [("drawtext", .dict
    [("fontfile", "/home/YouTube/resources/DejaVuSans.ttf"),
     ("text", postDateText),
     ("fontcolor", "black"),
     ("fontsize", "28"),
     ("box", "1"),
     ("boxcolor", "white@0.8"),
     ("boxborderw", "10"),
     ("x", "w-200"),
     ("y", "15")])]

/-- `FFMPEG._genFinalCmd` (lines 167-196): the aggregate rule text. -/
def genFinalCmd (videos : List Clip) : Except PyErr String :=
  match finalLoop videos { deps := "", input := "", vstreams := "", astreams := "", i := 0 } with
  | .error e => .error e
  | .ok a =>
    match parseFunction POST_DATE with
    | .error e => .error e
    | .ok date =>
      .ok ("build/final.mp4:" ++ a.deps ++ "\n\tffmpeg -hide_banner" ++ a.input ++
        " -filter_complex \"" ++ a.vstreams ++ "concat=n=" ++ toString a.i ++ "," ++ date ++
        "[video];" ++ a.astreams ++ "concat=v=0:a=1:n=" ++ toString a.i ++ "[audio]\"" ++
        " -map [video] -map [audio] -map_metadata -1 -c:v h264 -c:a aac -vsync 2" ++
        " -y build/final.mp4\n\n")

/-- The fixed header of the emitted Makefile (lines 207-213). -/
def makefileHeader : String :=
  "\nall: build/final.mp4\n\nclean:\n\trm -fv build/*.mp4\n\n"

/-- The per-clip loop of `FFMPEG.Makefile` (lines 214-217): defaults
`require` in place, renders one rule per clip. The `%(ffmpeg)s`
interpolation raises `KeyError` when the field is absent. -/
def mfLoop : List Clip → Except PyErr (List Clip × String)
  | [] => .ok ([], "")
  | v :: rest =>
    let req := v.require.getD ""
    match v.ffmpeg with
    | none => .error (.keyError "ffmpeg")
    | some f =>
      match mfLoop rest with
      | .error e => .error e
      | .ok (rest', body) =>
        .ok ({ v with require := some req } :: rest',
             (v.output ++ ": " ++ req ++ "\n\t" ++ f ++ "\n\n") ++ body)

/-- `FFMPEG.Makefile` (lines 198-219): header, one rule per clip, then
the aggregate rule. Returns the clips after mutation together with the
full text. -/
def Makefile (videos : List Clip) : Except PyErr (List Clip × String) :=
  match mfLoop videos with
  | .error e => .error e
  | .ok (videos', body) =>
    match genFinalCmd videos' with
    | .error e => .error e
    | .ok fin => .ok (videos', makefileHeader ++ body ++ fin)

/-- The whole run of `main` on an in-memory configuration (lines
232-235): `FFMPEG(config)` builds every per-clip command, then
`ff.Makefile()` renders the build-file text. Returns the mutated clip
list and the text. -/
def renderPipeline (videos : List Clip) : Except PyErr (List Clip × String) :=
  match buildVideoCmds videos with
  | .error e => .error e
  | .ok vs => Makefile vs

/-- The entry of an input list after the loop body of `_genVideoCmd`
has run over it: a plain path is untouched, a structured mapping has
lost its `i` key. -/
def stripEntry : InputEntry → InputEntry
  | .path p => .path p
  | .mapping m => .mapping (delI m)

/-- The `input` field after `_genVideoCmd` has run: every structured
mapping has lost its `i` key. -/
def stripI : InputSpec → InputSpec
  | .single p => .single p
  | .multi l => .multi (l.map stripEntry)

/-- True of an input entry that is a plain path (no structured
mapping). -/
def plainEntry : InputEntry → Bool
  | .path _ => true
  | .mapping _ => false

/-- True of an `input` field that contains no structured mapping. -/
def plainInputs : InputSpec → Bool
  | .single _ => true
  | .multi l => l.all plainEntry

/-- Concatenation of a list of strings without separator. -/
def strConcat : List String → String
  | [] => ""
  | s :: rest => s ++ strConcat rest

/-- The positional stream labels `[start + k ++ suffix]` for
`k < n`: with suffix `":v]"` these are the `[i:v]` labels of
`_genFinalCmd`, numbered consecutively from `start`. -/
def labels (suffix : String) (start : Nat) : Nat → List String
  | 0 => []
  | n + 1 => ("[" ++ toString start ++ suffix) :: labels suffix (start + 1) n

/-- The clips that `_genFinalCmd` includes: those whose attribute list
does not contain `not-a-build`. -/
def inclClips (videos : List Clip) : List Clip :=
  videos.filter (fun v => !((v.attributes.getD []).contains "not-a-build"))

/-- True of a filter-complex entry on which the loop body of
`parseFilterComplex` does not raise: raw strings always pass, a
structured entry needs its filter unit to be accepted by
`parseFunction`. -/
def entryOk : FCEntry → Bool
  | .raw _ => true
  | .obj _ func _ => (parseFunction func).toOption.isSome

/-- The fragment that one filter-complex entry contributes, per the
spec of the filter-chain formatter: raw strings unchanged, structured
entries as `istream ++ formatted function ++ ostream`. -/
def entryFrag : FCEntry → String
  | .raw s => s
  | .obj istream func ostream =>
    istream ++ ((parseFunction func).toOption.getD "") ++ ostream

/-- Running the whole configuration-to-text pipeline a second time on
the document as the first run left it. -/
def renderTwice (videos : List Clip) : Except PyErr (List Clip × String) :=
  match renderPipeline videos with
  | .error e => .error e
  | .ok (vs, _) => renderPipeline vs

/-- Number of positions of `s` at which `pat` occurs (as a list of
characters). -/
def occCount (pat : List Char) : List Char → Nat
  | [] => 0
  | c :: rest => (if pat.isPrefixOf (c :: rest) then 1 else 0) + occCount pat rest

/-- Number of occurrences of the pattern string in `s`. -/
def strOcc (pat s : String) : Nat := occCount pat.data s.data

/-- The one-clip configuration of the end-to-end example:
`{"videos": [{"input": "a.mp4", "output": "build/a.mp4"}]}`. -/
def cfgA : List Clip := [{ input := .single "a.mp4", output := "build/a.mp4" }]

/-- The clip list as the pipeline leaves it for `cfgA`. -/
def clipsA : List Clip := ((renderPipeline cfgA).toOption.map Prod.fst).getD []

/-- The build-file text the pipeline emits for `cfgA`. -/
def textA : String := ((renderPipeline cfgA).toOption.map Prod.snd).getD ""

/-- The rendered per-clip command for the clip of `cfgA`. -/
def recipeA : String :=
  "ffmpeg -hide_banner -i a.mp4 -vf scale=720x1280,setsar=1:1 -c:a aac -c:v h264 -map_metadata -1 -y build/a.mp4"

/-- A clip used to exhibit the mutations of `_genVideoCmd`: a
structured input mapping with an extra `-ss` flag, and no `attributes`
or `require` field. -/
def c3clip : Clip :=
  { input := .multi [.mapping [("i", "a.mp4"), ("ss", "3")]], output := "build/a.mp4" }

/-- The command `_genVideoCmd` renders for `c3clip`. -/
def c3cmd : String :=
  "ffmpeg -hide_banner -ss 3 -i a.mp4 -vf scale=720x1280,setsar=1:1 -c:a aac -c:v h264 -map_metadata -1 -y build/a.mp4"

/-- The clip as `_genVideoCmd` leaves it for `c3clip`: the `i` key is
gone from the input mapping, `attributes` and `require` have been
filled in, and `ffmpeg` holds the command. -/
def c3out : Clip :=
  { input := .multi [.mapping [("ss", "3")]], output := "build/a.mp4",
    attributes := some [], require := some "", ffmpeg := some c3cmd }

/-- A clip with attribute `no-audio` and no filter chain. -/
def w9 : Clip :=
  { input := .single "a.mp4", output := "build/a.mp4", attributes := some ["no-audio"] }

/-- The token list `_genVideoCmd` builds for `w9`. -/
def w9toks : List String :=
  ["ffmpeg", "-hide_banner", "-i", "a.mp4", "-vf", "scale=720x1280,setsar=1:1",
   "-c:v", "h264", "-map_metadata", "-1", "-y", "build/a.mp4"]

/-- The one-clip configuration whose input entry is a structured
mapping; used to show the second pipeline run fails. -/
def c4cfg : List Clip :=
  [{ input := .multi [.mapping [("i", "a.mp4")]], output := "build/a.mp4" }]

/-!  Theorems about the claims.  -/

/-- Claim C8: for every filter unit whose single value is a key/value
mapping, `parseFunction` returns the function name, then `=`, then the
`key=value` pairs joined with `:` in the order of the mapping. -/
theorem c8_parseFunction_dict (name : String) (kvs : List (String × String)) :
    parseFunction [(name, FVal.dict kvs)] =
      .ok (name ++ "=" ++ String.intercalate ":" (kvs.map (fun kv => kv.1 ++ "=" ++ kv.2))) :=
  rfl

/-- Claim C1 is false on the code: for a filter unit whose value is a
list, the final `':'.join(args)` of `parseFunction` runs over the
CHARACTERS of the already-joined string, so the docstring example
`{'trim': ['start=1.15', 'end=4.5']}` does not return
`trim=start=1.15:end=4.5` as documented but a character-separated
string. -/
theorem c1_list_character_join :
    parseFunction [("trim", FVal.list ["start=1.15", "end=4.5"])] =
      .ok "trim=s:t:a:r:t:=:1:.:1:5:::e:n:d:=:4:.:5" ∧
    parseFunction [("trim", FVal.list ["start=1.15", "end=4.5"])] ≠
      .ok "trim=start=1.15:end=4.5" := by
  refine ⟨rfl, fun h => absurd (Except.ok.inj h) (by decide)⟩

/-- Claim C2 is false on the code: a string scalar is not used as-is
(its characters are joined with `:`), and a numeric scalar raises
`TypeError` from `':'.join` even though the `isinstance` check accepts
`int` and `float`. -/
theorem c2_scalar_character_join :
    parseFunction [("fade", FVal.str "in")] = .ok "fade=i:n" ∧
    parseFunction [("fade", FVal.str "in")] ≠ .ok "fade=in" ∧
    parseFunction [("loop", FVal.num 3)] =
      .error (.typeError "can only join an iterable") := by
  exact ⟨rfl, fun h => absurd (Except.ok.inj h) (by decide), rfl⟩

/-- Claim C6 is partly violated by the code: a unit with two keys does
fail the one-key assertion, and an unsupported value type does fail
with the input-format `ValueError` naming the key, but a well-shaped
unit whose scalar is a number (a type the `isinstance` check accepts)
does NOT succeed: `':'.join` raises `TypeError` on it. -/
theorem c6_wellshaped_number_fails :
    parseFunction [("a", FVal.dict []), ("b", FVal.dict [])] =
      .error (.assertionError "unit must have only 1 key that is the function name!") ∧
    parseFunction [("f", FVal.null)] =
      .error (.valueError "Unknown type \"NoneType\" from unit[f]!") ∧
    parseFunction [("n", FVal.num 5)] =
      .error (.typeError "can only join an iterable") :=
  ⟨rfl, rfl, rfl⟩

/-- When every entry of the list renders without error, the fragment
list built by the loop of `parseFilterComplex` is exactly the map of
`entryFrag` over the entries, in order. -/
theorem pfcFrags_ok (fcs : List FCEntry) (h : fcs.all entryOk = true) :
    pfcFrags fcs = .ok (fcs.map entryFrag) := by
  induction fcs with
  | nil => rfl
  | cons e rest ih =>
    rw [List.all_cons, Bool.and_eq_true] at h
    obtain ⟨he, hrest⟩ := h
    cases e with
    | raw s => simp [pfcFrags, ih hrest, entryFrag]
    | obj istream func ostream =>
      simp only [entryOk] at he
      cases hp : parseFunction func with
      | error err => rw [hp] at he; simp [Except.toOption] at he
      | ok f =>
        simp [pfcFrags, hp, ih hrest, entryFrag, Except.toOption]

/-- Claim C7: for every sequence of filter-complex entries on which no
entry raises, `parseFilterComplex` passes raw strings through
unchanged, renders each structured entry as
`istream ++ formatted function ++ ostream`, preserves the input order,
and joins the fragments with `;` exactly once between each adjacent
pair. -/
theorem c7_parseFilterComplex (fcs : List FCEntry) (h : fcs.all entryOk = true) :
    parseFilterComplex fcs = .ok (String.intercalate ";" (fcs.map entryFrag)) := by
  unfold parseFilterComplex
  rw [pfcFrags_ok fcs h]

/-- Concrete instance of C7: raw strings and structured entries in
alternation, rendered in order with a single `;` between adjacent
fragments. -/
theorem c7_parseFilterComplex_witness :
    ([FCEntry.raw "[0:v]null[a]",
      FCEntry.obj "[a]" [("trim", FVal.dict [("start", "1"), ("end", "2")])] "[b]",
      FCEntry.raw "[b]null[video]"].all entryOk = true) ∧
    parseFilterComplex
      [FCEntry.raw "[0:v]null[a]",
       FCEntry.obj "[a]" [("trim", FVal.dict [("start", "1"), ("end", "2")])] "[b]",
       FCEntry.raw "[b]null[video]"] =
      .ok (String.intercalate ";"
        ([FCEntry.raw "[0:v]null[a]",
          FCEntry.obj "[a]" [("trim", FVal.dict [("start", "1"), ("end", "2")])] "[b]",
          FCEntry.raw "[b]null[video]"].map entryFrag)) :=
  ⟨by decide, c7_parseFilterComplex
    [FCEntry.raw "[0:v]null[a]",
     FCEntry.obj "[a]" [("trim", FVal.dict [("start", "1"), ("end", "2")])] "[b]",
     FCEntry.raw "[b]null[video]"] (by decide)⟩

/-- The loop of `_genFinalCmd`, from an arbitrary accumulator: it
appends one dependency, one `-i` flag and one pair of stream labels per
included clip, numbering the labels consecutively from the running
count. -/
theorem finalLoop_eq (videos : List Clip) (acc : FinalAcc)
    (h : videos.all (fun v => v.attributes.isSome) = true) :
    finalLoop videos acc = .ok
      { deps := acc.deps ++ strConcat ((inclClips videos).map (fun v => " " ++ v.output))
        input := acc.input ++ strConcat ((inclClips videos).map (fun v => " -i " ++ v.output))
        vstreams := acc.vstreams ++ strConcat (labels ":v]" acc.i (inclClips videos).length)
        astreams := acc.astreams ++ strConcat (labels ":a]" acc.i (inclClips videos).length)
        i := acc.i + (inclClips videos).length } := by
  induction videos generalizing acc with
  | nil => simp [finalLoop, inclClips, strConcat, labels, String.append_empty]
  | cons v rest ih =>
    rw [List.all_cons, Bool.and_eq_true] at h
    obtain ⟨hv, hrest⟩ := h
    cases ha : v.attributes with
    | none => rw [ha] at hv; simp at hv
    | some attrs =>
      by_cases hc : "not-a-build" ∈ attrs
      · have hincl : inclClips (v :: rest) = inclClips rest := by
          simp [inclClips, ha, hc]
        rw [hincl, show finalLoop (v :: rest) acc = finalLoop rest acc from by
          simp [finalLoop, ha, hc]]
        exact ih acc hrest
      · have hincl : inclClips (v :: rest) = v :: inclClips rest := by
          simp [inclClips, ha, hc]
        rw [hincl, show finalLoop (v :: rest) acc = finalLoop rest
            { deps := acc.deps ++ " " ++ v.output
              input := acc.input ++ " -i " ++ v.output
              vstreams := acc.vstreams ++ "[" ++ toString acc.i ++ ":v]"
              astreams := acc.astreams ++ "[" ++ toString acc.i ++ ":a]"
              i := acc.i + 1 } from by
          simp [finalLoop, ha, hc]]
        rw [ih _ hrest]
        simp only [List.map_cons, List.length_cons, strConcat, labels, Except.ok.injEq,
          FinalAcc.mk.injEq, String.append_assoc, and_true, true_and]
        omega

/-- Claim C5: the aggregate command builder excludes clips whose
attribute list contains `not-a-build` from the dependency list, the
`-i` input flags and the `[i:v]`/`[i:a]` stream labels, and numbers the
labels by the count of clips included so far, starting at 0 (one label
per included clip, in encounter order), not by the position in the
original list. -/
theorem c5_final_excludes_not_a_build (videos : List Clip)
    (h : videos.all (fun v => v.attributes.isSome) = true) :
    finalLoop videos { deps := "", input := "", vstreams := "", astreams := "", i := 0 } = .ok
      { deps := strConcat ((inclClips videos).map (fun v => " " ++ v.output))
        input := strConcat ((inclClips videos).map (fun v => " -i " ++ v.output))
        vstreams := strConcat (labels ":v]" 0 (inclClips videos).length)
        astreams := strConcat (labels ":a]" 0 (inclClips videos).length)
        i := (inclClips videos).length } := by
  have := finalLoop_eq videos { deps := "", input := "", vstreams := "", astreams := "", i := 0 } h
  simpa [String.empty_append] using this

/-- Concrete instance of C5: of two clips the first is flagged
`not-a-build`; only the second contributes, and its stream index is 0
although it is at position 1 of the original list. -/
theorem c5_final_excludes_witness :
    ([{ input := .single "x.mp4", output := "build/x.mp4",
        attributes := some ["not-a-build"] },
      { input := .single "y.mp4", output := "build/y.mp4",
        attributes := some ([] : List String) }] : List Clip).all
        (fun v => v.attributes.isSome) = true ∧
    finalLoop
      [{ input := .single "x.mp4", output := "build/x.mp4",
         attributes := some ["not-a-build"] },
       { input := .single "y.mp4", output := "build/y.mp4",
         attributes := some ([] : List String) }]
      { deps := "", input := "", vstreams := "", astreams := "", i := 0 } = .ok
      { deps := " build/y.mp4", input := " -i build/y.mp4",
        vstreams := "[0:v]", astreams := "[0:a]", i := 1 } :=
  ⟨by decide,
   c5_final_excludes_not_a_build
     [{ input := .single "x.mp4", output := "build/x.mp4",
        attributes := some ["not-a-build"] },
      { input := .single "y.mp4", output := "build/y.mp4",
        attributes := some ([] : List String) }] (by decide)⟩

/-- The entry returned by the loop body for one input entry is the
entry with its `i` key deleted. -/
theorem entryToks_snd (e : InputEntry) (ts : List String) (e' : InputEntry)
    (h : entryToks e = .ok (ts, e')) : e' = stripEntry e := by
  cases e with
  | path p =>
    simp only [entryToks, Except.ok.injEq, Prod.mk.injEq] at h
    exact h.2.symm
  | mapping m =>
    cases hl : lookupI m with
    | none => simp [entryToks, hl] at h
    | some iv =>
      simp only [entryToks, hl, Except.ok.injEq, Prod.mk.injEq] at h
      exact h.2.symm

/-- The entry list returned by the input loop is the original list with
each mapping stripped of its `i` key. -/
theorem entriesToks_snd (l : List InputEntry) (ts : List String) (l' : List InputEntry)
    (h : entriesToks l = .ok (ts, l')) : l' = l.map stripEntry := by
  induction l generalizing ts l' with
  | nil =>
    simp only [entriesToks, Except.ok.injEq, Prod.mk.injEq] at h
    simp [← h.2]
  | cons e rest ih =>
    cases he : entryToks e with
    | error err => simp [entriesToks, he] at h
    | ok p =>
      obtain ⟨ets, e'⟩ := p
      cases hr : entriesToks rest with
      | error err => simp [entriesToks, he, hr] at h
      | ok q =>
        obtain ⟨rts, rest'⟩ := q
        simp only [entriesToks, he, hr, Except.ok.injEq, Prod.mk.injEq] at h
        rw [← h.2, List.map_cons, entryToks_snd e ets e' he, ih rts rest' hr]

/-- The input specification returned alongside the input tokens is the
original one with every mapping stripped of its `i` key. -/
theorem inputToks_snd (inp : InputSpec) (ts : List String) (inp' : InputSpec)
    (h : inputToks inp = .ok (ts, inp')) : inp' = stripI inp := by
  cases inp with
  | single p =>
    simp only [inputToks, Except.ok.injEq, Prod.mk.injEq] at h
    exact h.2.symm
  | multi l =>
    cases he : entriesToks l with
    | error err => simp [inputToks, he] at h
    | ok p =>
      obtain ⟨ets, l'⟩ := p
      simp only [inputToks, he, Except.ok.injEq, Prod.mk.injEq] at h
      rw [← h.2, stripI, entriesToks_snd l ets l' he]

/-- Shape of a successful `_genVideoCmd` run: the returned clip is the
argument with exactly four changes — `i` keys removed from structured
input mappings, `attributes` and `require` defaulted in, and the
rendered command stored under `ffmpeg`. -/
theorem genVideoCmd_shape (c c' : Clip) (s : String) (h : genVideoCmd c = .ok (c', s)) :
    c' = { c with input := stripI c.input
                  attributes := some (c.attributes.getD [])
                  require := some (c.require.getD "")
                  ffmpeg := some s } := by
  simp only [genVideoCmd] at h
  cases hg : genVideoCmdToks c.input c.filter_complex (c.attributes.getD [])
      c.codec c.movflags c.output with
  | error e => rw [hg] at h; cases h
  | ok p =>
    obtain ⟨toks, inp'⟩ := p
    rw [hg] at h
    simp only [Except.ok.injEq, Prod.mk.injEq] at h
    obtain ⟨hc', hs⟩ := h
    have hinp : inp' = stripI c.input := by
      unfold genVideoCmdToks at hg
      cases hi : inputToks c.input with
      | error e => rw [hi] at hg; cases hg
      | ok q =>
        obtain ⟨its, i2⟩ := q
        rw [hi] at hg
        cases hf : filterToks c.filter_complex (c.attributes.getD []) with
        | error e => rw [hf] at hg; cases hg
        | ok fts =>
          rw [hf] at hg
          simp only [Except.ok.injEq, Prod.mk.injEq] at hg
          rw [← hg.2]
          exact inputToks_snd c.input its i2 hi
    rw [← hc', hinp, ← hs]

/-- Claim C3 is false on the code: besides storing the command under
`ffmpeg`, `_genVideoCmd` deletes the `i` key from the structured input
mapping and adds `attributes`/`require` fields that were absent, so the
resulting clip differs from the input clip with only `ffmpeg` set. -/
theorem c3_counterexample :
    genVideoCmd c3clip = .ok (c3out, c3cmd) ∧
    c3clip.attributes = none ∧ c3out.attributes = some [] ∧
    c3clip.input = .multi [.mapping [("i", "a.mp4"), ("ss", "3")]] ∧
    c3out.input = .multi [.mapping [("ss", "3")]] ∧
    c3out ≠ { c3clip with ffmpeg := some c3cmd } :=
  ⟨rfl, rfl, rfl, rfl, rfl, by decide⟩

/-- Claim C3 as amended: the per-clip builder returns the rendered
command and stores it on the clip under `ffmpeg`; its only other
mutations are deleting the `i` key from every structured input mapping
and filling in `attributes` (default `[]`) and `require` (default the
empty string) when absent; all remaining fields are left as given. -/
theorem c3_builder_effects (c c' : Clip) (s : String) (h : genVideoCmd c = .ok (c', s)) :
    c'.ffmpeg = some s ∧
    c' = { c with input := stripI c.input
                  attributes := some (c.attributes.getD [])
                  require := some (c.require.getD "")
                  ffmpeg := some s } := by
  have hs := genVideoCmd_shape c c' s h
  exact ⟨by rw [hs], hs⟩

/-- Concrete instance of the amended C3 at `c3clip`. -/
theorem c3_builder_effects_witness :
    genVideoCmd c3clip = .ok (c3out, c3cmd) ∧
    (c3out.ffmpeg = some c3cmd ∧
     c3out = { c3clip with input := stripI c3clip.input
                           attributes := some (c3clip.attributes.getD [])
                           require := some (c3clip.require.getD "")
                           ffmpeg := some c3cmd }) :=
  ⟨rfl, c3_builder_effects c3clip c3out c3cmd rfl⟩

/-- A string with a strictly longer prefix than `b` cannot equal `b`. -/
theorem append_ne_short (a s b : String) (hlen : b.length < a.length) : a ++ s ≠ b := by
  intro he
  have hl := congrArg String.length he
  rw [String.length_append] at hl
  omega

/-- Claim C9: for a clip whose attribute list contains `no-audio` and
which has no filter chain, the token list of the rendered per-clip
command contains neither a `-c:a` flag nor a `[audio]` map target (the
command string is these tokens joined by spaces). The inequality
hypotheses rule out the degenerate clips whose own input tokens, video
codec name or output path is literally the string `-c:a` or
`[audio]`. -/
theorem c9_no_audio_no_filter (c : Clip) (toks : List String) (inp' : InputSpec)
    (hna : (c.attributes.getD []).contains "no-audio" = true)
    (hfc : c.filter_complex = none)
    (hok : genVideoCmdToks c.input c.filter_complex (c.attributes.getD [])
      c.codec c.movflags c.output = .ok (toks, inp'))
    (hin : ∀ ts i2, inputToks c.input = .ok (ts, i2) →
      "-c:a" ∉ ts ∧ "[audio]" ∉ ts)
    (hv1 : ("-c:a" : String) ≠ videoCodec c.codec)
    (hv2 : ("[audio]" : String) ≠ videoCodec c.codec)
    (ho1 : ("-c:a" : String) ≠ c.output)
    (ho2 : ("[audio]" : String) ≠ c.output) :
    "-c:a" ∉ toks ∧ "[audio]" ∉ toks := by
  unfold genVideoCmdToks at hok
  cases hi : inputToks c.input with
  | error e => rw [hi] at hok; cases hok
  | ok q =>
    obtain ⟨its, i2⟩ := q
    rw [hi, hfc] at hok
    simp only [filterToks, Except.ok.injEq, Prod.mk.injEq] at hok
    obtain ⟨htoks, hinp⟩ := hok
    obtain ⟨h1, h2⟩ := hin its i2 hi
    have hmov1 : ∀ s : String, ("-c:a" : String) ≠ "-movflags " ++ s :=
      fun s => Ne.symm (append_ne_short "-movflags " s "-c:a" (by decide))
    have hmov2 : ∀ s : String, ("[audio]" : String) ≠ "-movflags " ++ s :=
      fun s => Ne.symm (append_ne_short "-movflags " s "[audio]" (by decide))
    have hna' : "no-audio" ∈ c.attributes.getD [] := by simpa using hna
    rw [← htoks]
    by_cases hnv : "no-video" ∈ c.attributes.getD [] <;>
      by_cases hvs : "vsync" ∈ c.attributes.getD [] <;>
        cases hm : c.movflags <;>
          simp [codecToks, tailToks, hna', hnv, hvs, h1, h2, hv1, hv2, ho1, ho2,
            hmov1, hmov2]

/-- Concrete instance of C9: a clip with attribute `no-audio` and no
filter chain; its rendered token list has no `-c:a` and no `[audio]`. -/
theorem c9_no_audio_no_filter_witness :
    ((w9.attributes.getD []).contains "no-audio" = true) ∧
    ("-c:a" ∉ w9toks ∧ "[audio]" ∉ w9toks) :=
  ⟨rfl,
   c9_no_audio_no_filter w9 w9toks (.single "a.mp4") rfl rfl rfl
     (fun ts i2 h => by
       injection h with hp
       injection hp with hts hi2
       rw [← hts]
       exact ⟨by decide, by decide⟩)
     (by decide) (by decide) (by decide) (by decide)⟩

/-- A plain-path entry is untouched by the `i`-key stripping. -/
theorem stripEntry_plain (e : InputEntry) (h : plainEntry e = true) : stripEntry e = e := by
  cases e with
  | path p => rfl
  | mapping m => simp [plainEntry] at h

/-- A list of plain-path entries is untouched by the stripping. -/
theorem map_stripEntry_plain (l : List InputEntry) (h : l.all plainEntry = true) :
    l.map stripEntry = l := by
  induction l with
  | nil => rfl
  | cons e rest ih =>
    rw [List.all_cons, Bool.and_eq_true] at h
    rw [List.map_cons, stripEntry_plain e h.1, ih h.2]

/-- An input specification without structured mappings is untouched by
the stripping. -/
theorem stripI_plain (inp : InputSpec) (h : plainInputs inp = true) : stripI inp = inp := by
  cases inp with
  | single p => rfl
  | multi l =>
    rw [plainInputs] at h
    rw [stripI, map_stripEntry_plain l h]

/-- `_genVideoCmd` is idempotent on a clip without structured input
mappings: a second run on the clip it produced succeeds and returns the
same clip and the same command. -/
theorem genVideoCmd_idem (c c' : Clip) (s : String)
    (hp : plainInputs c.input = true)
    (h : genVideoCmd c = .ok (c', s)) :
    genVideoCmd c' = .ok (c', s) := by
  have hshape := genVideoCmd_shape c c' s h
  simp only [genVideoCmd] at h
  cases hg : genVideoCmdToks c.input c.filter_complex (c.attributes.getD [])
      c.codec c.movflags c.output with
  | error e => rw [hg] at h; cases h
  | ok p =>
    obtain ⟨toks, inp'⟩ := p
    rw [hg] at h
    simp only [Except.ok.injEq, Prod.mk.injEq] at h
    obtain ⟨hc', hs⟩ := h
    have hinp : inp' = c.input := by
      have h1 := congrArg Clip.input (hc'.trans hshape)
      simpa [stripI_plain c.input hp] using h1
    rw [hshape, stripI_plain c.input hp]
    simp only [genVideoCmd, Option.getD_some, hg]
    simp only [Except.ok.injEq, Prod.mk.injEq]
    exact ⟨by rw [hinp, hs], hs⟩

/-- `_buildVideoCmds` is idempotent on configurations whose clips all
have plain inputs, and every clip it returns carries a `require`
field. -/
theorem buildVideoCmds_idem (videos vs : List Clip)
    (hp : videos.all (fun v => plainInputs v.input) = true)
    (h : buildVideoCmds videos = .ok vs) :
    buildVideoCmds vs = .ok vs ∧ vs.all (fun v => v.require.isSome) = true := by
  induction videos generalizing vs with
  | nil =>
    simp only [buildVideoCmds, Except.ok.injEq] at h
    rw [← h]
    exact ⟨rfl, rfl⟩
  | cons v rest ih =>
    rw [List.all_cons, Bool.and_eq_true] at hp
    cases hg : genVideoCmd v with
    | error e => simp [buildVideoCmds, hg] at h
    | ok p =>
      obtain ⟨v', s⟩ := p
      cases hr : buildVideoCmds rest with
      | error e => simp [buildVideoCmds, hg, hr] at h
      | ok rest' =>
        simp only [buildVideoCmds, hg, hr, Except.ok.injEq] at h
        subst h
        obtain ⟨ih1, ih2⟩ := ih rest' hp.2 hr
        have hidem := genVideoCmd_idem v v' s hp.1 hg
        constructor
        · simp only [buildVideoCmds, hidem, ih1]
        · rw [List.all_cons, Bool.and_eq_true]
          refine ⟨?_, ih2⟩
          rw [genVideoCmd_shape v v' s hg]
          rfl

/-- The clip-rule loop of `Makefile` returns the clip list unchanged
when every clip already carries a `require` field. -/
theorem mfLoop_fixed (l l' : List Clip) (body : String)
    (hr : l.all (fun v => v.require.isSome) = true)
    (h : mfLoop l = .ok (l', body)) : l' = l := by
  induction l generalizing l' body with
  | nil =>
    simp only [mfLoop, Except.ok.injEq, Prod.mk.injEq] at h
    exact h.1.symm
  | cons v rest ih =>
    rw [List.all_cons, Bool.and_eq_true] at hr
    cases hf : v.ffmpeg with
    | none => simp [mfLoop, hf] at h
    | some f =>
      cases hm : mfLoop rest with
      | error e => simp [mfLoop, hf, hm] at h
      | ok q =>
        obtain ⟨rest', body'⟩ := q
        simp only [mfLoop, hf, hm, Except.ok.injEq, Prod.mk.injEq] at h
        rw [← h.1, ih rest' body' hr.2 hm]
        have hsome := hr.1
        obtain ⟨r, hrr⟩ := Option.isSome_iff_exists.1 hsome
        congr 1
        cases v
        simp_all

/-- Claim C4 is false on the code: the first pipeline run succeeds on a
configuration whose clip input is the structured mapping
`[{'i': 'a.mp4'}]`, but the run deletes the `i` key from that mapping,
so running the pipeline a second time on the same document raises
`KeyError: 'i'` instead of reproducing the text. -/
theorem c4_counterexample :
    (renderPipeline c4cfg).isOk = true ∧
    renderTwice c4cfg = .error (.keyError "i") :=
  ⟨rfl, rfl⟩

/-- Claim C4 as amended: for every configuration document none of whose
clips has a structured input mapping, a second run of the whole
configuration-to-text pipeline on the document as the first run left it
succeeds and produces byte-identical build-file text (and leaves the
document unchanged). -/
theorem c4_plain_idempotent (videos vs : List Clip) (t : String)
    (hp : videos.all (fun v => plainInputs v.input) = true)
    (h : renderPipeline videos = .ok (vs, t)) :
    renderPipeline vs = .ok (vs, t) := by
  cases hb : buildVideoCmds videos with
  | error e => simp only [renderPipeline, hb] at h; cases h
  | ok vs1 =>
    simp only [renderPipeline, hb] at h
    obtain ⟨hb2, hreq⟩ := buildVideoCmds_idem videos vs1 hp hb
    have hvs : vs = vs1 := by
      cases hm : mfLoop vs1 with
      | error e => simp only [Makefile, hm] at h; cases h
      | ok q =>
        obtain ⟨l', body⟩ := q
        cases hf : genFinalCmd l' with
        | error e => simp only [Makefile, hm, hf] at h; cases h
        | ok fin =>
          simp only [Makefile, hm, hf, Except.ok.injEq, Prod.mk.injEq] at h
          rw [← h.1]
          exact mfLoop_fixed vs1 l' body hreq hm
    subst hvs
    simp only [renderPipeline, hb2]
    exact h

/-- Concrete instance of the amended C4: the plain one-clip example
configuration; the second run reproduces the first run's text and
clips. -/
theorem c4_plain_idempotent_witness :
    (cfgA.all (fun v => plainInputs v.input) = true) ∧
    renderPipeline clipsA = .ok (clipsA, textA) :=
  ⟨rfl, c4_plain_idempotent cfgA clipsA textA rfl rfl⟩

set_option maxRecDepth 100000 in
/-- Claim C10: the end-to-end example. For the configuration
`{"videos": [{"input": "a.mp4", "output": "build/a.mp4"}]}` the
pipeline emits a build-file with exactly one clip rule whose recipe
contains `-i a.mp4`, the default scale filter, the default audio and
video codecs and `-map_metadata -1`, and ends with `-y build/a.mp4`;
the file also contains exactly one `all:` target depending on
`build/final.mp4` and exactly one `clean:` target. -/
theorem c10_end_to_end :
    renderPipeline cfgA = .ok (clipsA, textA) ∧
    clipsA.map (fun c => c.ffmpeg) = [some recipeA] ∧
    strOcc "-i a.mp4" recipeA = 1 ∧
    strOcc "scale=720x1280,setsar=1:1" recipeA = 1 ∧
    strOcc "-c:a aac" recipeA = 1 ∧
    strOcc "-c:v h264" recipeA = 1 ∧
    strOcc "-map_metadata -1" recipeA = 1 ∧
    ("-y build/a.mp4").data.isSuffixOf recipeA.data = true ∧
    strOcc ("build/a.mp4: \n\t" ++ recipeA ++ "\n\n") textA = 1 ∧
    strOcc "all:" textA = 1 ∧
    strOcc "all: build/final.mp4" textA = 1 ∧
    strOcc "clean:" textA = 1 :=
  ⟨rfl, rfl, rfl, rfl, rfl, rfl, rfl, rfl, rfl, rfl, rfl, rfl⟩

end Automake
